import Mathlib

/-!
Shallow embedding of the room state machine of the Imposter game server
(`GameRoom` and its socket-level command handlers).  JavaScript `Map`s
(insertion-ordered, `set` overwrites in place) are modelled as association
lists, JS `Set`s as duplicate-free lists in insertion order, and the
`Math.random()` draws of `startGame` as explicit index arguments.  A JS
runtime exception (e.g. indexing a missing word-catalog entry) is modelled
as `none` of an `Option` result.
-/

namespace Imposter

inductive GameState where
  | waiting
  | playing
  | voting
  | ended
deriving DecidableEq, Repr

structure Player where
  id : Nat
  username : String
  isAdmin : Bool
deriving DecidableEq, Repr

structure Settings where
  maxPlayers : Nat
  roundTime : Nat
  theme : String
  difficulty : String
deriving DecidableEq, Repr

/-- One past-round record pushed onto `gameHistory` by `endGame`. -/
structure HistEntry where
  word : Option String
  imposter : Player
  votedOut : Option Player
  imposterWon : Bool
  players : List Player
  timestamp : Nat
deriving DecidableEq, Repr

/-- The `currentRound` record of a `GameRoom`. -/
structure Round where
  word : Option String
  imposter : Option Player
  timeRemaining : Nat
  skipVotes : List Nat
  votes : List (Nat × Nat)
  startTime : Option Nat
deriving DecidableEq, Repr

structure Room where
  id : String
  name : String
  adminId : Nat
  players : List Player
  gameState : GameState
  settings : Settings
  currentRound : Round
  gameHistory : List HistEntry
deriving DecidableEq, Repr

/-- The `GameRoom` constructor. -/
def GameRoom.new (id name : String) (adminId : Nat) : Room :=
  { id := id
    name := name
    adminId := adminId
    players := []
    gameState := GameState.waiting
    settings := { maxPlayers := 10, roundTime := 300, theme := "animals", difficulty := "medium" }
    currentRound :=
      { word := none, imposter := none, timeRemaining := 0,
        skipVotes := [], votes := [], startTime := none }
    gameHistory := [] }

/-- Lookup of `wordLibraries[theme].words[difficulty]`; `none` models a
missing theme or difficulty key (a runtime `TypeError` / `undefined`). -/
def wordLibraries : String → String → Option (List String)
  | "animals", "easy" =>
      some ["Hund", "Katze", "Pferd", "Kuh", "Schwein", "Huhn", "Ente", "Schaf", "Ziege", "Hase"]
  | "animals", "medium" =>
      some ["Elefant", "Giraffe", "Zebra", "Löwe", "Tiger", "Panda", "Koala", "Pinguin", "Delfin", "Wal"]
  | "animals", "hard" =>
      some ["Axolotl", "Quetzal", "Okapi", "Gharial", "Aye-Aye", "Pangolin", "Tapir", "Binturong", "Fossa", "Numbat"]
  | "food", "easy" =>
      some ["Apfel", "Brot", "Käse", "Milch", "Wasser", "Reis", "Nudeln", "Ei", "Butter", "Zucker"]
  | "food", "medium" =>
      some ["Lasagne", "Sushi", "Cappuccino", "Croissant", "Paella", "Quinoa", "Hummus", "Gazpacho", "Risotto", "Tiramisu"]
  | "food", "hard" =>
      some ["Bouillabaisse", "Ceviche", "Maultasche", "Borschtsch", "Kimchi", "Pho", "Mole", "Tagine", "Pierogi", "Baklava"]
  | "objects", "easy" =>
      some ["Stuhl", "Tisch", "Buch", "Telefon", "Auto", "Haus", "Fenster", "Tür", "Lampe", "Uhr"]
  | "objects", "medium" =>
      some ["Computer", "Mikrowelle", "Staubsauger", "Waschmaschine", "Fernseher", "Kühlschrank", "Sofa", "Schrank", "Spiegel", "Bild"]
  | "objects", "hard" =>
      some ["Kaleidoskop", "Astrolabium", "Sextant", "Chronometer", "Barometer", "Hygrometer", "Seismograph", "Spektrometer", "Theodolite", "Planimeter"]
  | "activities", "easy" =>
      some ["Laufen", "Schwimmen", "Lesen", "Singen", "Tanzen", "Malen", "Kochen", "Schlafen", "Essen", "Spielen"]
  | "activities", "medium" =>
      some ["Bergsteigen", "Surfen", "Fotografieren", "Gärtnern", "Angeln", "Wandern", "Radfahren", "Skifahren", "Segeln", "Reiten"]
  | "activities", "hard" =>
      some ["Falknerei", "Kalligrafie", "Origami", "Bonsai", "Geocaching", "Parkour", "Aikido", "Bogenschießen", "Slacklining", "Kite-Surfen"]
  | _, _ => none

/-- JS `Set.add`: no effect when the element is present, else append
(insertion order preserved). -/
def setAdd (s : List Nat) (x : Nat) : List Nat :=
  if s.contains x then s else s ++ [x]

/-- JS `Map.set`: overwrite in place when the key is present, else append. -/
def mapInsert : List (Nat × Nat) → Nat → Nat → List (Nat × Nat)
  | [], k, v => [(k, v)]
  | (a, b) :: rest, k, v =>
      if a = k then (a, v) :: rest else (a, b) :: mapInsert rest k v

/-- JS `Map.get`. -/
def mapLookup : List (Nat × Nat) → Nat → Option Nat
  | [], _ => none
  | (a, b) :: rest, k => if a = k then some b else mapLookup rest k

/-- Method `GameRoom.addPlayer` (returns the JS boolean and the updated room). -/
def addPlayer (r : Room) (p : Player) : Bool × Room :=
  if r.settings.maxPlayers ≤ r.players.length then
    (false, r)
  else if r.players.any (fun q => q.id == p.id) then
    (false, r)
  else if r.players.isEmpty then
    (true, { r with players := [{ p with isAdmin := true }], adminId := p.id })
  else
    (true, { r with players := r.players ++ [p] })

/-- Method `GameRoom.removePlayer` (returns whether the room is now empty, and the
updated room). -/
def removePlayer (r : Room) (playerId : Nat) : Bool × Room :=
  match r.players.filter (fun p => p.id != playerId) with
  | [] => (true, { r with players := [] })
  | p0 :: rest =>
      if r.adminId = playerId then
        (false, { r with players := { p0 with isAdmin := true } :: rest, adminId := p0.id })
      else
        (false, { r with players := p0 :: rest })

/-- Method `GameRoom.startGame`.  Here `imposterIndex` and `wordIndex` stand for the two
`Math.floor(Math.random() * n)` draws (always `< n`); `now` stands for
`Date.now()`.  `none` models a thrown exception (missing catalog entry or an
out-of-range random index, which the source cannot actually produce). -/
def startGame (r : Room) (imposterIndex wordIndex now : Nat) : Option (Bool × Room) :=
  if r.players.length < 3 then some (false, r)
  else if r.gameState ≠ GameState.waiting then some (false, r)
  else
    match wordLibraries r.settings.theme r.settings.difficulty with
    | none => none
    | some words =>
        match r.players.get? imposterIndex, words.get? wordIndex with
        | some imp, some w =>
            some (true,
              { r with
                  gameState := GameState.playing,
                  currentRound :=
                    { word := some w, imposter := some imp,
                      timeRemaining := r.settings.roundTime,
                      skipVotes := [], votes := [], startTime := some now } })
        | _, _ => none

/-- Method `GameRoom.endRound`. -/
def endRound (r : Room) : Room :=
  { r with
      gameState := GameState.voting,
      currentRound := { r.currentRound with timeRemaining := 60 } }

/-- Method `GameRoom.addSkipVote` (returns the JS boolean and the updated room). -/
def addSkipVote (r : Room) (playerId : Nat) : Bool × Room :=
  let sv := setAdd r.currentRound.skipVotes playerId
  let r1 := { r with currentRound := { r.currentRound with skipVotes := sv } }
  let needed := (r1.players.length + 1) / 2
  if needed ≤ sv.length then (true, endRound r1) else (false, r1)

/-- The `voteCount` map of `endGame`: iterate the vote targets in voter
insertion order, incrementing in place or appending a fresh entry with
count 1 (JS `Map` semantics). -/
def bump : List (Nat × Nat) → Nat → List (Nat × Nat)
  | [], k => [(k, 1)]
  | (a, c) :: rest, k =>
      if a = k then (a, c + 1) :: rest else (a, c) :: bump rest k

def tally : List Nat → List (Nat × Nat)
  | [] => []
  | t :: rest => bumpAll (bump [] t) rest
where
  bumpAll (acc : List (Nat × Nat)) : List Nat → List (Nat × Nat)
    | [] => acc
    | t :: rest => bumpAll (bump acc t) rest

/-- The `mostVoted`/`maxVotes` accumulation loop of `endGame`: walk the
tally in insertion order keeping the first entry with a strictly greater
count, resolving its id against the player list at update time. -/
def pickGo (players : List Player) : Option Player × Nat → List (Nat × Nat) → Option Player × Nat
  | acc, [] => acc
  | acc, (k, c) :: rest =>
      pickGo players (if acc.2 < c then (players.find? (fun p => p.id == k), c) else acc) rest

def pickMostVoted (players : List Player) (t : List (Nat × Nat)) : Option Player × Nat :=
  pickGo players (none, 0) t

/-- The per-player counter increments `updatePlayerStats` forwards to the
stats store for one finished round. -/
structure StatsDelta where
  gamesPlayed : Nat
  gamesWon : Nat
  timesImposter : Nat
  timesCaughtImposter : Nat
deriving DecidableEq, Repr

/-- The return value of `endGame`. -/
structure Outcome where
  word : Option String
  imposter : Player
  votedOut : Option Player
  imposterWon : Bool
deriving DecidableEq, Repr

/-- The counter deltas `updatePlayerStats` issues, one database write per
entry of `players`, in player order. -/
def statsDeltas (players : List Player) (imp : Player) (imposterWon : Bool)
    (votedOut : Option Player) : List (Nat × StatsDelta) :=
  players.map (fun p =>
    let isImposter : Bool := p.id == imp.id
    let won : Bool := if isImposter then imposterWon else !imposterWon
    (p.id,
      { gamesPlayed := 1
        gamesWon := if won then 1 else 0
        timesImposter := if isImposter then 1 else 0
        timesCaughtImposter :=
          if isImposter && (match votedOut with
            | some v => v.id == p.id
            | none => false) then 1 else 0 }))

/-- Method `GameRoom.endGame`; `now` stands for the Date value.  The result carries
the returned outcome, the list of stats-store writes issued by
`updatePlayerStats`, and the updated room; `none` models the `TypeError`
thrown when `currentRound.imposter` is `null`. -/
def endGame (r : Room) (now : Nat) : Option (Outcome × List (Nat × StatsDelta) × Room) :=
  match r.currentRound.imposter with
  | none => none
  | some imp =>
      let voteCount := tally (r.currentRound.votes.map Prod.snd)
      let mostVoted := (pickMostVoted r.players voteCount).1
      let imposterWon : Bool :=
        match mostVoted with
        | none => true
        | some v => v.id != imp.id
      let entry : HistEntry :=
        { word := r.currentRound.word, imposter := imp, votedOut := mostVoted,
          imposterWon := imposterWon, players := r.players, timestamp := now }
      some
        ({ word := r.currentRound.word, imposter := imp,
           votedOut := mostVoted, imposterWon := imposterWon },
         statsDeltas r.players imp imposterWon mostVoted,
         { r with gameState := GameState.ended,
                  gameHistory := r.gameHistory ++ [entry] })

/-- Method `GameRoom.addVote`: record or overwrite the choice of the voter; end the game
when every current player has voted, else return `null` (modelled as the
`none` outcome component).  The outer `none` models a thrown exception
inside `endGame`. -/
def addVote (r : Room) (voterId targetId now : Nat) :
    Option (Option Outcome × List (Nat × StatsDelta) × Room) :=
  let votes1 := mapInsert r.currentRound.votes voterId targetId
  let r1 := { r with currentRound := { r.currentRound with votes := votes1 } }
  if votes1.length = r1.players.length then
    match endGame r1 now with
    | none => none
    | some (o, ds, r2) => some (some o, ds, r2)
  else
    some (none, [], r1)

/-- Method `GameRoom.resetGame`. -/
def resetGame (r : Room) : Room :=
  { r with
      gameState := GameState.waiting,
      currentRound :=
        { word := none, imposter := none, timeRemaining := 0,
          skipVotes := [], votes := [], startTime := none } }

/-- The per-field optional settings object a client may send with `updateSettings`
(shallow-merged over the room settings field by field). -/
structure SettingsUpdate where
  maxPlayers : Option Nat
  roundTime : Option Nat
  theme : Option String
  difficulty : Option String
deriving DecidableEq, Repr

def mergeSettings (s : Settings) (u : SettingsUpdate) : Settings :=
  { maxPlayers := u.maxPlayers.getD s.maxPlayers
    roundTime := u.roundTime.getD s.roundTime
    theme := u.theme.getD s.theme
    difficulty := u.difficulty.getD s.difficulty }

/-- Handler of the updateSettings socket event: `room?` is `rooms.get(roomId)`,
`userId` the identity of the issuing connection.  Returns the room (if any)
after the command and whether an error event was emitted to the issuer. -/
def handleUpdateSettings (room? : Option Room) (userId : Nat) (u : SettingsUpdate) :
    Option Room × Bool :=
  match room? with
  | none => (none, true)
  | some r =>
      if r.adminId ≠ userId then (some r, true)
      else (some { r with settings := mergeSettings r.settings u }, false)

/-- Handler of the skipVote socket event: `timerActive` is whether
`roomTimers` holds a running round timer for this room; the handler clears
it exactly when `addSkipVote` reports the quorum reached. -/
def handleSkipVote (r : Room) (userId : Nat) (timerActive : Bool) : Room × Bool :=
  if r.gameState ≠ GameState.playing then (r, timerActive)
  else
    let res := addSkipVote r userId
    (res.2, if res.1 then false else timerActive)

/-- Handler of the vote socket event (state guard then `addVote`). -/
def handleVote (r : Room) (voterId targetId now : Nat) :
    Option (Option Outcome × List (Nat × StatsDelta) × Room) :=
  if r.gameState ≠ GameState.voting then some (none, [], r)
  else addVote r voterId targetId now

/-! ### Derived observation functions -/

/-- Number of distinct voters recorded in the current round (the keys of a
JS `Map` are unique, and `mapInsert` preserves key uniqueness). -/
def numVoters (r : Room) : Nat := r.currentRound.votes.length

/-- The recorded vote of one voter. -/
def voteOf (r : Room) (voterId : Nat) : Option Nat :=
  mapLookup r.currentRound.votes voterId

/-- The `mostVoted` player `endGame` computes for a room. -/
def mostVotedOf (r : Room) : Option Player :=
  (pickMostVoted r.players (tally (r.currentRound.votes.map Prod.snd))).1

/-- The `imposterWon` flag `endGame` computes for a room. -/
def endGameWon (r : Room) (imp : Player) : Bool :=
  match mostVotedOf r with
  | none => true
  | some v => v.id != imp.id

/-- The history entry `endGame` appends. -/
def endGameEntry (r : Room) (imp : Player) (now : Nat) : HistEntry :=
  { word := r.currentRound.word, imposter := imp, votedOut := mostVotedOf r,
    imposterWon := endGameWon r imp, players := r.players, timestamp := now }

/-- Maximum count appearing in a tally (0 for an empty tally). -/
def maxCountR : List (Nat × Nat) → Nat
  | [] => 0
  | (_, c) :: rest => max c (maxCountR rest)

/-- Specification-level tie-break: the first tally entry (in insertion
order) whose count equals the maximum count. -/
def firstArgmax (t : List (Nat × Nat)) : Option (Nat × Nat) :=
  t.find? (fun kv => kv.2 == maxCountR t)

/-- The room after `addVote` has written the choice of the voter into the
votes map (the state right before the completion check). -/
def voteInserted (r : Room) (voterId targetId : Nat) : Room :=
  { r with currentRound :=
      { r.currentRound with votes := mapInsert r.currentRound.votes voterId targetId } }

/-- Number of players with `isAdmin = true`. -/
def adminCount (r : Room) : Nat := r.players.countP (fun p => p.isAdmin)

/-- The admin invariant of the spec: exactly `min 1 playerCount` admins,
and the admin (when present) is the player whose id is `adminId`. -/
def adminInv (r : Room) : Prop :=
  adminCount r = min 1 r.players.length ∧
  ∀ p ∈ r.players, p.isAdmin = true → p.id = r.adminId

/-- The claimed invariant `skipVotes ⊆ current players`. -/
def skipVotesSubset (r : Room) : Prop :=
  ∀ x ∈ r.currentRound.skipVotes, ∃ p ∈ r.players, p.id = x

instance skipVotesSubsetDecidable (r : Room) : Decidable (skipVotesSubset r) :=
  inferInstanceAs (Decidable (∀ x ∈ r.currentRound.skipVotes, ∃ p ∈ r.players, p.id = x))

/-! ### Concrete fixtures used by witnesses and counterexamples -/

def alice : Player := { id := 1, username := "alice", isAdmin := true }

def bob : Player := { id := 2, username := "bob", isAdmin := false }

def carol : Player := { id := 3, username := "carol", isAdmin := false }

def dave : Player := { id := 4, username := "dave", isAdmin := false }

def erin : Player := { id := 5, username := "erin", isAdmin := false }

/-- A waiting three-player room with default settings. -/
def waitingRoom3 : Room :=
  { GameRoom.new "ROOM01" "fixture" 1 with players := [alice, bob, carol] }

/-- A playing five-player room with no skip votes yet. -/
def playingRoom5 : Room :=
  { GameRoom.new "ROOM02" "fixture" 1 with
      players := [alice, bob, carol, dave, erin]
      gameState := GameState.playing
      currentRound :=
        { word := some "Elefant", imposter := some bob, timeRemaining := 300,
          skipVotes := [], votes := [], startTime := some 0 } }

/-- A voting three-player room where `alice` and `carol` have already
voted for `bob`. -/
def votingRoom3 : Room :=
  { GameRoom.new "ROOM03" "fixture" 1 with
      players := [alice, bob, carol]
      gameState := GameState.voting
      currentRound :=
        { word := some "Elefant", imposter := some bob, timeRemaining := 60,
          skipVotes := [], votes := [(1, 2), (3, 2)], startTime := some 0 } }

/-- The voting fixture after all three votes (imposter `bob`, votes
alice→bob, carol→bob, bob→alice — the §8 scenario). -/
def endRoomC3 : Room :=
  { votingRoom3 with
      currentRound := { votingRoom3.currentRound with votes := [(1, 2), (3, 2), (2, 1)] } }

/-- A settings patch setting only `roundTime := 42`. -/
def roundTimePatch : SettingsUpdate :=
  { maxPlayers := none, roundTime := some 42, theme := none, difficulty := none }

/-- The five-player playing fixture after two distinct skip votes. -/
def skipRoom5 : Room :=
  { playingRoom5 with
      currentRound := { playingRoom5.currentRound with skipVotes := [1, 2] } }

/-! ### Helper lemmas about the JS collection primitives -/

theorem setAdd_contains (s : List Nat) (x : Nat) : (setAdd s x).contains x = true := by
  unfold setAdd
  split
  · assumption
  · simp

theorem setAdd_twice (s : List Nat) (x : Nat) : setAdd (setAdd s x) x = setAdd s x := by
  have h := setAdd_contains s x
  conv_lhs => rw [setAdd]
  rw [if_pos h]

theorem setAdd_length_of_not_mem (s : List Nat) (x : Nat) (h : x ∉ s) :
    (setAdd s x).length = s.length + 1 := by
  unfold setAdd
  split
  · simp_all
  · simp

theorem setAdd_subset (s : List Nat) (x : Nat) (y : Nat) (hy : y ∈ setAdd s x) :
    y ∈ s ∨ y = x := by
  unfold setAdd at hy
  split at hy
  · exact Or.inl hy
  · simpa using hy

theorem mapLookup_mapInsert_self (m : List (Nat × Nat)) (k v : Nat) :
    mapLookup (mapInsert m k v) k = some v := by
  induction m with
  | nil => simp [mapInsert, mapLookup]
  | cons hd tl ih =>
      obtain ⟨a, b⟩ := hd
      by_cases hak : a = k
      · simp [mapInsert, mapLookup, hak]
      · simp [mapInsert, mapLookup, hak, ih]

theorem mapLookup_mapInsert_other (m : List (Nat × Nat)) (k v k2 : Nat) (hk : k2 ≠ k) :
    mapLookup (mapInsert m k v) k2 = mapLookup m k2 := by
  induction m with
  | nil =>
      simp only [mapInsert, mapLookup]
      rw [if_neg (fun h => hk h.symm)]
  | cons hd tl ih =>
      obtain ⟨a, b⟩ := hd
      by_cases hak : a = k
      · subst hak
        have hne : ¬a = k2 := fun h => hk h.symm
        simp [mapInsert, mapLookup, hne]
      · simp only [mapInsert, if_neg hak, mapLookup]
        by_cases ha2 : a = k2
        · simp [ha2]
        · simp [ha2, ih]

theorem mapInsert_length (m : List (Nat × Nat)) (k v : Nat) :
    (mapInsert m k v).length =
      m.length + (if (mapLookup m k).isSome then 0 else 1) := by
  induction m with
  | nil => simp [mapInsert, mapLookup]
  | cons hd tl ih =>
      obtain ⟨a, b⟩ := hd
      by_cases hak : a = k
      · simp [mapInsert, mapLookup, hak]
      · simp [mapInsert, mapLookup, hak, ih]
        omega

theorem mem_keys_mapInsert (m : List (Nat × Nat)) (k v x : Nat)
    (hx : x ∈ (mapInsert m k v).map Prod.fst) : x ∈ m.map Prod.fst ∨ x = k := by
  induction m with
  | nil => simpa [mapInsert] using hx
  | cons hd tl ih =>
      obtain ⟨a, b⟩ := hd
      by_cases hak : a = k
      · subst hak
        simp only [mapInsert, if_pos rfl] at hx
        simp at hx ⊢
        tauto
      · simp only [mapInsert, if_neg hak, List.map_cons, List.mem_cons] at hx ⊢
        rcases hx with hx | hx
        · exact Or.inl (Or.inl hx)
        · rcases ih hx with h2 | h2
          · exact Or.inl (Or.inr h2)
          · exact Or.inr h2

theorem mapInsert_keys_nodup (m : List (Nat × Nat)) (k v : Nat)
    (h : (m.map Prod.fst).Nodup) : ((mapInsert m k v).map Prod.fst).Nodup := by
  induction m with
  | nil => simp [mapInsert]
  | cons hd tl ih =>
      obtain ⟨a, b⟩ := hd
      simp only [List.map_cons, List.nodup_cons] at h
      by_cases hak : a = k
      · simp only [mapInsert, if_pos hak, List.map_cons, List.nodup_cons]
        exact h
      · simp only [mapInsert, if_neg hak, List.map_cons, List.nodup_cons]
        refine ⟨fun hmem => ?_, ih h.2⟩
        rcases mem_keys_mapInsert tl k v a hmem with h2 | h2
        · exact h.1 h2
        · exact hak h2

/-- Evaluation of `endGame` when an imposter is set: it never fails. -/
theorem endGame_eq (r : Room) (now : Nat) (imp : Player)
    (himp : r.currentRound.imposter = some imp) :
    endGame r now =
      some
        ({ word := r.currentRound.word, imposter := imp,
           votedOut := mostVotedOf r, imposterWon := endGameWon r imp },
         statsDeltas r.players imp (endGameWon r imp) (mostVotedOf r),
         { r with gameState := GameState.ended,
                  gameHistory := r.gameHistory ++ [endGameEntry r imp now] }) := by
  simp only [endGame, himp, mostVotedOf, endGameWon, endGameEntry]

theorem statsDeltas_map_fst (players : List Player) (imp : Player) (won : Bool)
    (mv : Option Player) :
    (statsDeltas players imp won mv).map Prod.fst = players.map Player.id := by
  simp [statsDeltas]

theorem statsDeltas_length (players : List Player) (imp : Player) (won : Bool)
    (mv : Option Player) :
    (statsDeltas players imp won mv).length = players.length := by
  simp [statsDeltas]

theorem statsDeltas_mem (players : List Player) (imp : Player) (won : Bool)
    (mv : Option Player) (pd : Nat × StatsDelta) (h : pd ∈ statsDeltas players imp won mv) :
    pd.2.gamesPlayed = 1 ∧
    pd.2.timesImposter = (if pd.1 = imp.id then 1 else 0) ∧
    pd.2.gamesWon = (if (if pd.1 = imp.id then won else !won) then 1 else 0) ∧
    pd.2.timesCaughtImposter =
      (if pd.1 = imp.id ∧ (∃ v, mv = some v ∧ v.id = pd.1) then 1 else 0) := by
  obtain ⟨p, hp, hpd⟩ := List.mem_map.mp h
  subst hpd
  refine ⟨rfl, ?_, ?_, ?_⟩
  · by_cases hpi : p.id = imp.id <;> simp [hpi]
  · by_cases hpi : p.id = imp.id <;> simp [hpi]
  · by_cases hpi : p.id = imp.id
    · cases mv with
      | none => simp [hpi]
      | some v =>
          by_cases hv : v.id = p.id <;> simp [hpi, hv]
    · simp [hpi]

theorem bump_pos (acc : List (Nat × Nat)) (t : Nat)
    (h : ∀ kv ∈ acc, 0 < kv.2) : ∀ kv ∈ bump acc t, 0 < kv.2 := by
  induction acc with
  | nil =>
      intro kv hkv
      simp only [bump, List.mem_singleton] at hkv
      subst hkv
      simp
  | cons hd rest ih =>
      obtain ⟨a, c⟩ := hd
      intro kv hkv
      by_cases hat : a = t
      · simp only [bump, if_pos hat, List.mem_cons] at hkv
        rcases hkv with hkv | hkv
        · subst hkv
          simp
        · exact h kv (List.mem_cons_of_mem _ hkv)
      · simp only [bump, if_neg hat, List.mem_cons] at hkv
        rcases hkv with hkv | hkv
        · subst hkv
          exact h (a, c) (List.mem_cons_self _ _)
        · exact ih (fun kv2 hkv2 => h kv2 (List.mem_cons_of_mem _ hkv2)) kv hkv

theorem bumpAll_pos (ts : List Nat) (acc : List (Nat × Nat))
    (h : ∀ kv ∈ acc, 0 < kv.2) : ∀ kv ∈ tally.bumpAll acc ts, 0 < kv.2 := by
  induction ts generalizing acc with
  | nil => simpa [tally.bumpAll] using h
  | cons t rest ih =>
      simp only [tally.bumpAll]
      exact ih (bump acc t) (bump_pos acc t h)

theorem tally_pos (ts : List Nat) : ∀ kv ∈ tally ts, 0 < kv.2 := by
  cases ts with
  | nil => simp [tally]
  | cons t rest =>
      simp only [tally]
      exact bumpAll_pos rest (bump [] t) (bump_pos [] t (by simp))

theorem pickGo_high (players : List Player) (t : List (Nat × Nat))
    (acc : Option Player × Nat) (h : maxCountR t ≤ acc.2) :
    pickGo players acc t = acc := by
  induction t generalizing acc with
  | nil => rfl
  | cons kv rest ih =>
      obtain ⟨k, c⟩ := kv
      simp only [maxCountR] at h
      have hc : ¬acc.2 < c := by omega
      simp only [pickGo, if_neg hc]
      exact ih acc (by omega)

theorem pickGo_max (players : List Player) (t : List (Nat × Nat))
    (acc : Option Player × Nat) (h : acc.2 < maxCountR t) :
    pickGo players acc t =
      ((t.find? (fun kv => kv.2 == maxCountR t)).bind
        (fun kv => players.find? (fun p => p.id == kv.1)), maxCountR t) := by
  induction t generalizing acc with
  | nil => simp [maxCountR] at h
  | cons kv rest ih =>
      obtain ⟨k, c⟩ := kv
      by_cases hcm : maxCountR ((k, c) :: rest) = c
      · have hacc : acc.2 < c := by
          have := h
          rw [hcm] at this
          exact this
        have hrest : maxCountR rest ≤ c := by
          simp only [maxCountR] at hcm
          omega
        simp only [pickGo, if_pos hacc]
        rw [pickGo_high players rest _ (by simpa using hrest)]
        have hfind : ((k, c) :: rest).find? (fun kv => kv.2 == maxCountR ((k, c) :: rest)) =
            some (k, c) := by
          rw [List.find?_cons_of_pos]
          simp [hcm]
        rw [hfind]
        simp [hcm]
      · have hlt : c < maxCountR rest := by
          simp only [maxCountR] at hcm ⊢
          omega
        have hmax : maxCountR ((k, c) :: rest) = maxCountR rest := by
          simp only [maxCountR]
          omega
        have hfind : ((k, c) :: rest).find? (fun kv => kv.2 == maxCountR ((k, c) :: rest)) =
            rest.find? (fun kv => kv.2 == maxCountR rest) := by
          rw [List.find?_cons_of_neg, hmax]
          simp only [hmax]
          simpa using Nat.ne_of_lt hlt
        rw [hfind, hmax]
        by_cases hacc : acc.2 < c
        · simp only [pickGo, if_pos hacc]
          exact ih _ (by simpa using hlt)
        · simp only [pickGo, if_neg hacc]
          exact ih acc (by rw [hmax] at h; exact h)

theorem pickMostVoted_firstArgmax (players : List Player) (t : List (Nat × Nat))
    (hpos : ∀ kv ∈ t, 0 < kv.2) :
    (pickMostVoted players t).1 =
      (firstArgmax t).bind (fun kv => players.find? (fun p => p.id == kv.1)) := by
  cases t with
  | nil => rfl
  | cons kv rest =>
      have hm : (0 : Nat) < maxCountR (kv :: rest) := by
        have h1 : 0 < kv.2 := hpos kv (List.mem_cons_self _ _)
        obtain ⟨k, c⟩ := kv
        simp only [maxCountR]
        omega
      rw [pickMostVoted, pickGo_max players (kv :: rest) (none, 0) hm]
      rfl

theorem addPlayer_players_sup (r : Room) (p : Player) :
    ∀ q ∈ r.players, q ∈ (addPlayer r p).2.players := by
  intro q hq
  unfold addPlayer
  by_cases hfull : r.settings.maxPlayers ≤ r.players.length
  · simpa [hfull] using hq
  · by_cases hany : r.players.any (fun q2 => q2.id == p.id) = true
    · simpa [hfull, hany] using hq
    · by_cases hemp : r.players.isEmpty
      · rw [List.isEmpty_iff.mp hemp] at hq
        exact absurd hq (List.not_mem_nil q)
      · simp only [if_neg hfull, hany, Bool.false_eq_true, if_false, hemp]
        exact List.mem_append_left _ hq

theorem addPlayer_skipVotes (r : Room) (p : Player) :
    (addPlayer r p).2.currentRound.skipVotes = r.currentRound.skipVotes := by
  unfold addPlayer
  by_cases hfull : r.settings.maxPlayers ≤ r.players.length
  · simp [hfull]
  · by_cases hany : r.players.any (fun q2 => q2.id == p.id) = true
    · simp [hfull, hany]
    · by_cases hemp : r.players.isEmpty <;> simp [hfull, hany, hemp]

theorem addSkipVote_players (r : Room) (playerId : Nat) :
    (addSkipVote r playerId).2.players = r.players := by
  simp only [addSkipVote, endRound]
  split <;> rfl

theorem addSkipVote_skipVotes (r : Room) (playerId : Nat) :
    (addSkipVote r playerId).2.currentRound.skipVotes =
      setAdd r.currentRound.skipVotes playerId := by
  simp only [addSkipVote, endRound]
  split <;> rfl

theorem removePlayer_currentRound (r : Room) (playerId : Nat) :
    (removePlayer r playerId).2.currentRound = r.currentRound := by
  unfold removePlayer
  split
  · rfl
  · split <;> rfl

/-! ### Claim theorems -/

/-- Claim C8: `addSkipVote` is idempotent per identity — calling it twice with the
same identity yields exactly the same room (hence the same `skipVotes` set
and size) as calling it once, and every call returns whether the skip-vote
count has reached the quorum `ceil(playerCount / 2)`. -/
theorem addSkipVote_idempotent :
    ∀ (r : Room) (playerId : Nat),
      addSkipVote (addSkipVote r playerId).2 playerId = addSkipVote r playerId ∧
      (addSkipVote r playerId).1 =
        decide ((r.players.length + 1) / 2 ≤ (setAdd r.currentRound.skipVotes playerId).length) := by
  intro r pid
  obtain ⟨id, name, adminId, players, gs, settings, cr, gh⟩ := r
  obtain ⟨w, imp, tr, sv, vs, st⟩ := cr
  constructor
  · simp only [addSkipVote, endRound]
    by_cases hq : (players.length + 1) / 2 ≤ (setAdd sv pid).length
    · simp [hq, setAdd_twice]
    · simp [hq, setAdd_twice]
  · simp only [addSkipVote]
    by_cases hq : (players.length + 1) / 2 ≤ (setAdd sv pid).length
    · simp [hq]
    · simp [hq]

/-- Claim C1: `startGame` fails with the room unchanged when the player count is
below 3 or the game state is not `waiting`; otherwise it succeeds, moving to
`playing`, with the imposter one of the current players, the word drawn from
`wordLibraries[theme][difficulty]`, `timeRemaining = settings.roundTime`,
cleared `skipVotes`/`votes`, and the round start time recorded. -/
theorem startGame_spec :
    ∀ (r : Room) (imposterIndex wordIndex now : Nat),
      (r.players.length < 3 ∨ r.gameState ≠ GameState.waiting →
        startGame r imposterIndex wordIndex now = some (false, r)) ∧
      (∀ (words : List String) (imp : Player) (w : String),
        3 ≤ r.players.length →
        r.gameState = GameState.waiting →
        wordLibraries r.settings.theme r.settings.difficulty = some words →
        r.players.get? imposterIndex = some imp →
        words.get? wordIndex = some w →
        ∃ r2, startGame r imposterIndex wordIndex now = some (true, r2) ∧
          r2.gameState = GameState.playing ∧
          r2.currentRound.imposter = some imp ∧ imp ∈ r.players ∧
          r2.currentRound.word = some w ∧ w ∈ words ∧
          r2.currentRound.timeRemaining = r.settings.roundTime ∧
          r2.currentRound.skipVotes = [] ∧
          r2.currentRound.votes = [] ∧
          r2.currentRound.startTime = some now ∧
          r2.players = r.players ∧ r2.settings = r.settings) := by
  intro r ii wi now
  constructor
  · intro h
    unfold startGame
    rcases h with h | h
    · simp [h]
    · rcases hlt : decide (r.players.length < 3) with _ | _
      · simp at hlt
        simp [hlt, h]
      · simp at hlt
        simp [hlt]
  · intro words imp w hlen hstate hlib himp hw
    have hlt : ¬r.players.length < 3 := by omega
    refine ⟨{ r with
        gameState := GameState.playing,
        currentRound :=
          { word := some w, imposter := some imp,
            timeRemaining := r.settings.roundTime, skipVotes := [], votes := [],
            startTime := some now } }, ?_,
      rfl, rfl, List.get?_mem himp, rfl, List.get?_mem hw, rfl, rfl, rfl, rfl, rfl, rfl⟩
    simp [startGame, hlt, hstate, hlib, ← List.get?_eq_getElem?, himp, hw]

/-- Witness for C1: in a waiting three-player room with the default
settings, `startGame` with random draws 0 and 0 succeeds, selecting the
first player as imposter and the word "Elefant". -/
theorem startGame_spec_witness :
    3 ≤ waitingRoom3.players.length ∧
    waitingRoom3.gameState = GameState.waiting ∧
    ∃ r2, startGame waitingRoom3 0 0 7 = some (true, r2) ∧
      r2.gameState = GameState.playing ∧
      r2.currentRound.imposter = some alice ∧ alice ∈ waitingRoom3.players ∧
      r2.currentRound.word = some "Elefant" ∧
      r2.currentRound.timeRemaining = waitingRoom3.settings.roundTime ∧
      r2.currentRound.skipVotes = [] ∧
      r2.currentRound.votes = [] := by
  refine ⟨by decide, by decide, ?_⟩
  obtain ⟨r2, h1, h2, h3, h4, h5, h6, h7, h8, h9, h10, h11, h12⟩ :=
    (startGame_spec waitingRoom3 0 0 7).2
      ["Elefant", "Giraffe", "Zebra", "Löwe", "Tiger", "Panda", "Koala", "Pinguin", "Delfin", "Wal"]
      alice "Elefant" (by decide) rfl rfl rfl rfl
  exact ⟨r2, h1, h2, h3, h4, h5, h7, h8, h9⟩

/-- Claim C7: `addPlayer` is rejected (no change to the room) when the room
already holds `maxPlayers` players or when a player with the same identity
is already present, so a duplicate-free player list stays duplicate-free. -/
theorem addPlayer_reject_spec :
    ∀ (r : Room) (p : Player),
      (r.settings.maxPlayers ≤ r.players.length → addPlayer r p = (false, r)) ∧
      ((∃ q ∈ r.players, q.id = p.id) → addPlayer r p = (false, r)) ∧
      ((r.players.map Player.id).Nodup →
        (((addPlayer r p).2.players.map Player.id)).Nodup) := by
  intro r p
  refine ⟨fun hfull => by simp [addPlayer, hfull], fun hdup => ?_, fun hnd => ?_⟩
  · unfold addPlayer
    by_cases hfull : r.settings.maxPlayers ≤ r.players.length
    · simp [hfull]
    · have hany : r.players.any (fun q => q.id == p.id) = true := by
        obtain ⟨q, hq, hqid⟩ := hdup
        exact List.any_eq_true.mpr ⟨q, hq, by simpa using hqid⟩
      simp [hfull, hany]
  · unfold addPlayer
    by_cases hfull : r.settings.maxPlayers ≤ r.players.length
    · simpa [hfull] using hnd
    · by_cases hany : r.players.any (fun q => q.id == p.id) = true
      · simpa [hfull, hany] using hnd
      · by_cases hemp : r.players.isEmpty
        · simp [hfull, hany, hemp]
        · have hall : ∀ q ∈ r.players, ¬q.id = p.id := by simpa using hany
          have hnotin : p.id ∉ r.players.map Player.id := by
            intro hmem
            obtain ⟨q, hq, hqid⟩ := List.mem_map.mp hmem
            exact hall q hq hqid
          simp only [addPlayer, if_neg hfull, hany, Bool.false_eq_true, if_false,
            hemp, List.map_append]
          refine List.Nodup.append hnd (by simp) ?_
          intro a ha hb
          simp only [List.map_cons, List.map_nil, List.mem_singleton] at hb
          subst hb
          exact hnotin ha

/-- Witness for C7: in the three-player fixture room, re-adding a player
with the identity of `bob` is rejected, an overfull room rejects,
and the duplicate-free id list stays duplicate-free. -/
theorem addPlayer_reject_spec_witness :
    (∃ q ∈ waitingRoom3.players, q.id = { bob with username := "bob2" }.id) ∧
    addPlayer waitingRoom3 { bob with username := "bob2" } = (false, waitingRoom3) ∧
    ((waitingRoom3.players.map Player.id).Nodup ∧
      (((addPlayer waitingRoom3 dave).2.players.map Player.id)).Nodup) := by
  refine ⟨⟨bob, by decide, rfl⟩, ?_, by decide, ?_⟩
  · exact (addPlayer_reject_spec waitingRoom3 { bob with username := "bob2" }).2.1
      ⟨bob, by decide, rfl⟩
  · exact (addPlayer_reject_spec waitingRoom3 dave).2.2 (by decide)

/-- Claim C5: the admin-count invariant `adminCount = min 1 playerCount` holds
for a fresh room and is preserved by `addPlayer` (which receives
`isAdmin = false` players from `joinRoom`, and grants admin itself on an
empty room) and by `removePlayer`; moreover removing the current admin
hands admin to the first entry of the remaining insertion-ordered player
list. -/
theorem admin_invariant :
    ∀ (r : Room) (p : Player) (playerId : Nat) (rid rname : String) (aid : Nat),
      adminInv (GameRoom.new rid rname aid) ∧
      (adminInv r → p.isAdmin = false → adminInv (addPlayer r p).2) ∧
      (adminInv r → r.players = [] → adminInv (addPlayer r p).2) ∧
      (adminInv r → adminInv (removePlayer r playerId).2) ∧
      (∀ p0 rest, r.adminId = playerId →
        r.players.filter (fun q => q.id != playerId) = p0 :: rest →
        (removePlayer r playerId).2.players = { p0 with isAdmin := true } :: rest ∧
        (removePlayer r playerId).2.adminId = p0.id) := by
  intro r p pid rid rname aid
  have addCase : adminInv r → (p.isAdmin = false ∨ r.players = []) → adminInv (addPlayer r p).2 := by
    rintro ⟨hcnt, hall⟩ hp
    unfold addPlayer
    by_cases hfull : r.settings.maxPlayers ≤ r.players.length
    · simpa [hfull, adminInv, adminCount] using ⟨hcnt, hall⟩
    · by_cases hany : r.players.any (fun q => q.id == p.id) = true
      · simpa [hfull, hany, adminInv, adminCount] using ⟨hcnt, hall⟩
      · by_cases hemp : r.players.isEmpty
        · simp [hfull, hany, hemp, adminInv, adminCount]
        · have hne : r.players ≠ [] := by simpa [List.isEmpty_iff] using hemp
          have hpf : p.isAdmin = false := by
            rcases hp with hp | hp
            · exact hp
            · exact absurd hp hne
          have hlen : 1 ≤ r.players.length := by
            cases hl : r.players with
            | nil => exact absurd hl hne
            | cons a l => simp
          refine ⟨?_, ?_⟩
          · simp only [addPlayer, if_neg hfull, hany, Bool.false_eq_true, if_false, hemp,
              adminCount, List.countP_append, List.length_append]
            simp only [adminCount] at hcnt
            rw [List.countP_cons_of_neg _ _ (by simp [hpf])]
            simp only [List.countP_nil]
            omega
          · intro q hq hqa
            simp only [addPlayer, if_neg hfull, hany, Bool.false_eq_true, if_false, hemp,
              List.mem_append, List.mem_singleton] at hq ⊢
            rcases hq with hq | hq
            · exact hall q hq hqa
            · subst hq
              exact absurd hqa (by simp [hpf])
  refine ⟨?_, fun hI hp => addCase hI (Or.inl hp), fun hI hp => addCase hI (Or.inr hp), ?_, ?_⟩
  · constructor
    · simp [GameRoom.new, adminCount]
    · intro q hq
      simp [GameRoom.new] at hq
  · rintro ⟨hcnt, hall⟩
    unfold removePlayer
    cases hfs : r.players.filter (fun q => q.id != pid) with
    | nil => simp [adminInv, adminCount]
    | cons p0 rest =>
        by_cases hA : r.adminId = pid
        · have hzero : (p0 :: rest).countP (fun q => q.isAdmin) = 0 := by
            rw [← hfs]
            rw [List.countP_eq_zero]
            intro q hq
            have hmem := List.mem_filter.mp hq
            intro hqa
            have h1 := hall q hmem.1 hqa
            have h2 : q.id ≠ pid := by simpa using hmem.2
            rw [hA] at h1
            exact h2 h1
          have hrest : rest.countP (fun q => q.isAdmin) = 0 := by
            rw [List.countP_cons] at hzero
            omega
          refine ⟨?_, ?_⟩
          · simp only [removePlayer, hfs, if_pos hA]
            simp only [adminCount, List.countP_cons, List.length_cons]
            simp [hrest]
          · intro q hq hqa
            simp only [removePlayer, hfs, if_pos hA, List.mem_cons] at hq ⊢
            rcases hq with hq | hq
            · subst hq
              rfl
            · exact absurd hqa (List.countP_eq_zero.mp hrest q hq)
        · have hne : r.players ≠ [] := by
            intro h0
            rw [h0] at hfs
            simp at hfs
          have hone : adminCount r = 1 := by
            have hlen : 1 ≤ r.players.length := by
              cases hl : r.players with
              | nil => exact absurd hl hne
              | cons a l => simp
            simp only [adminCount] at hcnt ⊢
            omega
          have hpos : 0 < r.players.countP (fun q => q.isAdmin) := by
            simp only [adminCount] at hone
            omega
          obtain ⟨a, ha, haa⟩ := List.countP_pos_iff.mp hpos
          have haid : a.id = r.adminId := hall a ha haa
          have hafs : a ∈ r.players.filter (fun q => q.id != pid) := by
            rw [List.mem_filter]
            refine ⟨ha, by simp [haid, hA]⟩
          have hfs_pos : 0 < (p0 :: rest).countP (fun q => q.isAdmin) := by
            rw [← hfs]
            exact List.countP_pos_iff.mpr ⟨a, hafs, haa⟩
          have hfs_le : (p0 :: rest).countP (fun q => q.isAdmin) ≤ adminCount r := by
            rw [← hfs]
            exact (List.filter_sublist r.players).countP_le _
          refine ⟨?_, ?_⟩
          · simp only [removePlayer, hfs, if_neg hA, adminCount, List.length_cons]
            omega
          · intro q hq hqa
            simp only [removePlayer, hfs, if_neg hA] at hq ⊢
            have : q ∈ r.players.filter (fun x => x.id != pid) := by rw [hfs]; exact hq
            exact hall q (List.mem_filter.mp this).1 hqa
  · intro p0 rest hA hfs
    simp [removePlayer, hfs, hA]

/-- Witness for C5: the invariant holds for the three-player fixture room
and is preserved when `dave` joins and when the admin `alice` leaves; after
`removePlayer 1` the earliest-joined remaining player `bob` is admin. -/
theorem admin_invariant_witness :
    adminInv waitingRoom3 ∧
    adminInv (addPlayer waitingRoom3 dave).2 ∧
    adminInv (removePlayer waitingRoom3 1).2 ∧
    ((removePlayer waitingRoom3 1).2.players = { bob with isAdmin := true } :: [carol] ∧
      (removePlayer waitingRoom3 1).2.adminId = bob.id) := by
  have hI : adminInv waitingRoom3 := by
    constructor
    · decide
    · decide
  refine ⟨hI, ?_, ?_, ?_⟩
  · exact (admin_invariant waitingRoom3 dave 1 "x" "y" 0).2.1 hI (by decide)
  · exact (admin_invariant waitingRoom3 dave 1 "x" "y" 0).2.2.2.1 hI
  · exact (admin_invariant waitingRoom3 dave 1 "x" "y" 0).2.2.2.2 bob [carol] rfl (by decide)

/-- Claim C2: in a voting room, `addVote` records or overwrites that single
vote of the voter (the count of distinct voters grows only when the voter is
new), and the game transitions to `ended` — with the end-of-game outcome
returned — exactly when the distinct-voter count equals the current player
count, every earlier call returning `null`. -/
theorem addVote_spec :
    ∀ (r : Room) (imp : Player) (voterId targetId now : Nat),
      r.gameState = GameState.voting →
      r.currentRound.imposter = some imp →
      ∃ outcome ds r2,
        addVote r voterId targetId now = some (outcome, ds, r2) ∧
        r2.players = r.players ∧
        voteOf r2 voterId = some targetId ∧
        (∀ v, v ≠ voterId → voteOf r2 v = voteOf r v) ∧
        numVoters r2 = numVoters r + (if (voteOf r voterId).isSome then 0 else 1) ∧
        ((r.currentRound.votes.map Prod.fst).Nodup →
          (r2.currentRound.votes.map Prod.fst).Nodup) ∧
        ((r2.gameState = GameState.ended) ↔ numVoters r2 = r.players.length) ∧
        ((∃ o, outcome = some o) ↔ numVoters r2 = r.players.length) ∧
        (numVoters r2 ≠ r.players.length → r2.gameState = GameState.voting ∧ outcome = none) := by
  intro r imp voter target now hstate himp
  have hunfold : addVote r voter target now =
      if (voteInserted r voter target).currentRound.votes.length = r.players.length then
        match endGame (voteInserted r voter target) now with
        | none => none
        | some (o, ds, r2) => some (some o, ds, r2)
      else some (none, [], voteInserted r voter target) := rfl
  have himp1 : (voteInserted r voter target).currentRound.imposter = some imp := himp
  have hkeep : (voteInserted r voter target).currentRound.votes =
      mapInsert r.currentRound.votes voter target := rfl
  by_cases hc : (voteInserted r voter target).currentRound.votes.length = r.players.length
  · rw [hunfold, if_pos hc, endGame_eq (voteInserted r voter target) now imp himp1]
    refine ⟨_, _, _, rfl, rfl, mapLookup_mapInsert_self r.currentRound.votes voter target,
      fun v hv => mapLookup_mapInsert_other r.currentRound.votes voter target v hv,
      mapInsert_length r.currentRound.votes voter target,
      fun h => mapInsert_keys_nodup r.currentRound.votes voter target h,
      ⟨fun _ => hc, fun _ => rfl⟩,
      ⟨fun _ => hc, fun _ => ⟨_, rfl⟩⟩,
      fun hne => absurd hc hne⟩
  · rw [hunfold, if_neg hc]
    refine ⟨_, _, _, rfl, rfl, mapLookup_mapInsert_self r.currentRound.votes voter target,
      fun v hv => mapLookup_mapInsert_other r.currentRound.votes voter target v hv,
      mapInsert_length r.currentRound.votes voter target,
      fun h => mapInsert_keys_nodup r.currentRound.votes voter target h,
      ⟨fun h => absurd (hstate.symm.trans h) (fun hx => GameState.noConfusion hx),
        fun h => absurd h hc⟩,
      ⟨fun h2 => absurd h2.choose_spec (fun hx => Option.noConfusion hx), fun h => absurd h hc⟩,
      fun _ => ⟨hstate, rfl⟩⟩

/-- Witness for C2: in the three-player voting fixture (two votes already
recorded), the vote by `bob` is the third distinct vote and ends the game with
an outcome returned. -/
theorem addVote_spec_witness :
    votingRoom3.gameState = GameState.voting ∧
    votingRoom3.currentRound.imposter = some bob ∧
    ∃ outcome ds r2,
      addVote votingRoom3 2 1 9 = some (outcome, ds, r2) ∧
      voteOf r2 2 = some 1 ∧
      numVoters r2 = votingRoom3.players.length ∧
      r2.gameState = GameState.ended ∧
      (∃ o, outcome = some o) := by
  refine ⟨rfl, rfl, ?_⟩
  obtain ⟨outcome, ds, r2, h1, _, h3, _, h5, _, h7, h8, _⟩ :=
    addVote_spec votingRoom3 bob 2 1 9 rfl rfl
  have hn : numVoters r2 = votingRoom3.players.length := by
    rw [h5]
    decide
  exact ⟨outcome, ds, r2, h1, h3, hn, h7.mpr hn, h8.mpr hn⟩

/-- Claim C6: the vote command that raises the distinct-voter count to the full
player count appends exactly one history entry (word, imposter, voted-out,
imposter-won flag, player snapshot, timestamp) and issues exactly one
stats-delta per player, with `games_played + 1` for everyone,
`times_imposter + 1` for the imposter, `games_won + 1` for the winning
side, and `times_caught_imposter + 1` for a correctly voted-out imposter. -/
theorem handleVote_end_effects :
    ∀ (r : Room) (imp : Player) (voterId targetId now : Nat),
      r.gameState = GameState.voting →
      r.currentRound.imposter = some imp →
      (mapInsert r.currentRound.votes voterId targetId).length = r.players.length →
      ∃ o ds r2,
        handleVote r voterId targetId now = some (some o, ds, r2) ∧
        r2.gameHistory = r.gameHistory ++
          [{ word := r.currentRound.word, imposter := imp, votedOut := o.votedOut,
             imposterWon := o.imposterWon, players := r.players, timestamp := now }] ∧
        r2.gameHistory.length = r.gameHistory.length + 1 ∧
        ds.map Prod.fst = r.players.map Player.id ∧
        ds.length = r.players.length ∧
        (∀ pd ∈ ds,
          pd.2.gamesPlayed = 1 ∧
          pd.2.timesImposter = (if pd.1 = imp.id then 1 else 0) ∧
          pd.2.gamesWon = (if (if pd.1 = imp.id then o.imposterWon else !o.imposterWon)
            then 1 else 0) ∧
          pd.2.timesCaughtImposter =
            (if pd.1 = imp.id ∧ (∃ v, o.votedOut = some v ∧ v.id = pd.1) then 1 else 0)) := by
  intro r imp voter target now hstate himp hc
  have hguard : handleVote r voter target now = addVote r voter target now := by
    simp [handleVote, hstate]
  have hunfold : addVote r voter target now =
      if (voteInserted r voter target).currentRound.votes.length = r.players.length then
        match endGame (voteInserted r voter target) now with
        | none => none
        | some (o, ds, r2) => some (some o, ds, r2)
      else some (none, [], voteInserted r voter target) := rfl
  have himp1 : (voteInserted r voter target).currentRound.imposter = some imp := himp
  have hc1 : (voteInserted r voter target).currentRound.votes.length = r.players.length := hc
  rw [hguard, hunfold, if_pos hc1, endGame_eq (voteInserted r voter target) now imp himp1]
  refine ⟨_, _, _, rfl, rfl, by simp [voteInserted], statsDeltas_map_fst _ _ _ _,
    statsDeltas_length _ _ _ _, fun pd hpd => statsDeltas_mem _ _ _ _ pd hpd⟩

/-- Witness for C6: in the three-player voting fixture, the completing
vote by `bob` appends one history entry and yields one stats delta per player. -/
theorem handleVote_end_effects_witness :
    votingRoom3.gameState = GameState.voting ∧
    (mapInsert votingRoom3.currentRound.votes 2 1).length = votingRoom3.players.length ∧
    ∃ o ds r2,
      handleVote votingRoom3 2 1 9 = some (some o, ds, r2) ∧
      r2.gameHistory.length = votingRoom3.gameHistory.length + 1 ∧
      ds.length = votingRoom3.players.length := by
  refine ⟨rfl, by decide, ?_⟩
  obtain ⟨o, ds, r2, h1, _, h3, _, h5, _⟩ :=
    handleVote_end_effects votingRoom3 bob 2 1 9 rfl rfl (by decide)
  exact ⟨o, ds, r2, h1, h3, h5⟩

/-- Claim C3: `endGame` tallies votes per target in voter insertion order, votes
out the first target (in tally iteration order) holding the strictly
greatest count, and the imposter wins iff nobody was voted out or the
voted-out player differs from the imposter; in the §8 scenario (players
alice/bob/carol, imposter bob, votes alice→bob, carol→bob, bob→alice) the
tally is bob:2, alice:1, bob is voted out, and the imposter loses. -/
theorem endGame_tally_spec :
    ∀ (r : Room) (imp : Player) (now : Nat),
      r.currentRound.imposter = some imp →
      (∃ o ds r2, endGame r now = some (o, ds, r2) ∧
        o.votedOut = (firstArgmax (tally (r.currentRound.votes.map Prod.snd))).bind
          (fun kv => r.players.find? (fun p => p.id == kv.1)) ∧
        (o.imposterWon = true ↔
          (o.votedOut = none ∨ ∃ v, o.votedOut = some v ∧ v.id ≠ imp.id))) ∧
      (tally (endRoomC3.currentRound.votes.map Prod.snd) = [(2, 2), (1, 1)] ∧
        ∃ o ds r2, endGame endRoomC3 5 = some (o, ds, r2) ∧
          o.votedOut = some bob ∧ o.imposterWon = false) := by
  intro r imp now himp
  constructor
  · refine ⟨_, _, _, endGame_eq r now imp himp, ?_, ?_⟩
    · exact pickMostVoted_firstArgmax r.players
        (tally (r.currentRound.votes.map Prod.snd))
        (tally_pos (r.currentRound.votes.map Prod.snd))
    · show endGameWon r imp = true ↔
        (mostVotedOf r = none ∨ ∃ v, mostVotedOf r = some v ∧ v.id ≠ imp.id)
      cases hmv : mostVotedOf r with
      | none => simp [endGameWon, hmv]
      | some v => simp [endGameWon, hmv]
  · exact ⟨by decide, _, _, _, endGame_eq endRoomC3 5 bob rfl, by decide, by decide⟩

/-- Witness for C3: applying the tally/outcome theorem to the concrete
finished round where `bob` is the imposter and is voted out two-to-one. -/
theorem endGame_tally_spec_witness :
    endRoomC3.currentRound.imposter = some bob ∧
    ∃ o ds r2, endGame endRoomC3 5 = some (o, ds, r2) ∧
      o.votedOut = (firstArgmax (tally (endRoomC3.currentRound.votes.map Prod.snd))).bind
        (fun kv => endRoomC3.players.find? (fun p => p.id == kv.1)) ∧
      (o.imposterWon = true ↔
        (o.votedOut = none ∨ ∃ v, o.votedOut = some v ∧ v.id ≠ bob.id)) :=
  ⟨rfl, (endGame_tally_spec endRoomC3 bob 5 rfl).1⟩

/-- Claim C4: in a playing room the skip quorum is `ceil(playerCount / 2)`
(`(n + 1) / 2` in natural division); a fresh skip vote that reaches the
quorum transitions to `voting` with `timeRemaining = 60` and cancels the
round timer, while one that stays below leaves the room playing with the
timer intact; with 5 players the 3rd distinct skip vote — not the 2nd —
makes the transition. -/
theorem skipQuorum_spec :
    ∀ (r : Room) (userId : Nat) (timerActive : Bool),
      r.gameState = GameState.playing →
      userId ∉ r.currentRound.skipVotes →
      ((r.players.length + 1) / 2 ≤ r.currentRound.skipVotes.length + 1 →
        (handleSkipVote r userId timerActive).1.gameState = GameState.voting ∧
        (handleSkipVote r userId timerActive).1.currentRound.timeRemaining = 60 ∧
        (handleSkipVote r userId timerActive).2 = false) ∧
      (r.currentRound.skipVotes.length + 1 < (r.players.length + 1) / 2 →
        (handleSkipVote r userId timerActive).1.gameState = GameState.playing ∧
        (handleSkipVote r userId timerActive).1.currentRound.skipVotes.length =
          r.currentRound.skipVotes.length + 1 ∧
        (handleSkipVote r userId timerActive).2 = timerActive) ∧
      ((handleSkipVote playingRoom5 1 true).1.gameState = GameState.playing ∧
        (handleSkipVote (handleSkipVote playingRoom5 1 true).1 2 true).1.gameState =
          GameState.playing ∧
        (handleSkipVote (handleSkipVote (handleSkipVote playingRoom5 1 true).1 2 true).1 3
          true).1.gameState = GameState.voting ∧
        (handleSkipVote (handleSkipVote (handleSkipVote playingRoom5 1 true).1 2 true).1 3
          true).1.currentRound.timeRemaining = 60 ∧
        (handleSkipVote (handleSkipVote (handleSkipVote playingRoom5 1 true).1 2 true).1 3
          true).2 = false) := by
  intro r uid timer hstate hnot
  have hun : handleSkipVote r uid timer =
      ((addSkipVote r uid).2, if (addSkipVote r uid).1 then false else timer) := by
    simp [handleSkipVote, hstate]
  have hlen := setAdd_length_of_not_mem r.currentRound.skipVotes uid hnot
  refine ⟨?_, ?_, by decide⟩
  · intro hq
    have hq2 : (r.players.length + 1) / 2 ≤ (setAdd r.currentRound.skipVotes uid).length := by
      omega
    have haddsv : addSkipVote r uid =
        (true, endRound { r with currentRound :=
          { r.currentRound with skipVotes := setAdd r.currentRound.skipVotes uid } }) := by
      show (if (r.players.length + 1) / 2 ≤ (setAdd r.currentRound.skipVotes uid).length then
          (true, endRound { r with currentRound :=
            { r.currentRound with skipVotes := setAdd r.currentRound.skipVotes uid } })
        else (false, { r with currentRound :=
            { r.currentRound with skipVotes := setAdd r.currentRound.skipVotes uid } })) = _
      rw [if_pos hq2]
    rw [hun, haddsv]
    exact ⟨rfl, rfl, rfl⟩
  · intro hq
    have hq2 : ¬(r.players.length + 1) / 2 ≤ (setAdd r.currentRound.skipVotes uid).length := by
      omega
    have haddsv : addSkipVote r uid =
        (false, { r with currentRound :=
          { r.currentRound with skipVotes := setAdd r.currentRound.skipVotes uid } }) := by
      show (if (r.players.length + 1) / 2 ≤ (setAdd r.currentRound.skipVotes uid).length then
          (true, endRound { r with currentRound :=
            { r.currentRound with skipVotes := setAdd r.currentRound.skipVotes uid } })
        else (false, { r with currentRound :=
            { r.currentRound with skipVotes := setAdd r.currentRound.skipVotes uid } })) = _
      rw [if_neg hq2]
    rw [hun, haddsv]
    exact ⟨hstate, hlen, rfl⟩

/-- Witness for C4: in the five-player fixture with two skip votes
already cast, the third distinct skip vote transitions to voting,
resets the timer field to 60 and clears the round timer. -/
theorem skipQuorum_spec_witness :
    skipRoom5.gameState = GameState.playing ∧
    3 ∉ skipRoom5.currentRound.skipVotes ∧
    (skipRoom5.players.length + 1) / 2 ≤ skipRoom5.currentRound.skipVotes.length + 1 ∧
    ((handleSkipVote skipRoom5 3 true).1.gameState = GameState.voting ∧
      (handleSkipVote skipRoom5 3 true).1.currentRound.timeRemaining = 60 ∧
      (handleSkipVote skipRoom5 3 true).2 = false) := by
  refine ⟨rfl, by decide, by decide, ?_⟩
  exact (skipQuorum_spec skipRoom5 3 true rfl (by decide)).1 (by decide)

/-- Claim C9 counterexample: with the five-player fixture in the `playing`
state, its admin (identity 1) issues `updateSettings` with a
`roundTime := 42` patch; the handler mutates the settings and emits no
error even though `gameState ≠ waiting`, refuting the claim that settings
are mutable only while waiting. -/
theorem updateSettings_counterexample :
    playingRoom5.gameState ≠ GameState.waiting ∧
    playingRoom5.adminId = 1 ∧
    (handleUpdateSettings (some playingRoom5) 1 roundTimePatch).2 = false ∧
    ((handleUpdateSettings (some playingRoom5) 1 roundTimePatch).1.map
      (fun r => r.settings.roundTime)) = some 42 ∧
    playingRoom5.settings.roundTime = 300 ∧
    (handleUpdateSettings (some playingRoom5) 1 roundTimePatch).1 ≠ some playingRoom5 := by
  decide

/-- Claim C9 as amended: `updateSettings` mutates the room settings (shallow
merge) whenever the issuing identity is the admin of the room, regardless of
`gameState`; it is rejected with an error event and no mutation exactly
when the room is missing or the issuer is not the admin. -/
theorem updateSettings_admin_spec :
    ∀ (userId : Nat) (u : SettingsUpdate) (r : Room),
      handleUpdateSettings none userId u = (none, true) ∧
      (r.adminId ≠ userId →
        handleUpdateSettings (some r) userId u = (some r, true)) ∧
      (r.adminId = userId →
        handleUpdateSettings (some r) userId u =
          (some { r with settings := mergeSettings r.settings u }, false)) := by
  intro uid u r
  refine ⟨rfl, fun h => ?_, fun h => ?_⟩
  · simp [handleUpdateSettings, h]
  · simp [handleUpdateSettings, h]

/-- Witness for amended C9: the patch of the admin goes through in the
playing fixture; a non-admin (identity 2) is rejected without mutation. -/
theorem updateSettings_admin_spec_witness :
    playingRoom5.adminId = 1 ∧
    handleUpdateSettings (some playingRoom5) 1 roundTimePatch =
      (some { playingRoom5 with
        settings := mergeSettings playingRoom5.settings roundTimePatch }, false) ∧
    (playingRoom5.adminId ≠ 2 ∧
      handleUpdateSettings (some playingRoom5) 2 roundTimePatch = (some playingRoom5, true)) := by
  refine ⟨rfl, ?_, by decide, ?_⟩
  · exact (updateSettings_admin_spec 1 roundTimePatch playingRoom5).2.2 rfl
  · exact (updateSettings_admin_spec 2 roundTimePatch playingRoom5).2.1 (by decide)

/-- Claim C10 counterexample: in the five-player playing fixture, `carol`
(identity 3) casts a skip vote (quorum not yet reached) and then leaves;
`removePlayer` does not delete her skip vote, so `skipVotes` is no longer
a subset of the identities of the current players. -/
theorem skipVotes_subset_counterexample :
    skipVotesSubset playingRoom5 ∧
    skipVotesSubset (addSkipVote playingRoom5 3).2 ∧
    ¬skipVotesSubset (removePlayer (addSkipVote playingRoom5 3).2 3).2 := by
  decide

/-- Claim C10 as amended: `skipVotes ⊆ current players` is preserved by
`addPlayer`, by `addSkipVote` whenever the voting identity belongs to the
room, and re-established by a successful `startGame` and by `resetGame`
(both clear `skipVotes`); `removePlayer`, however, leaves the departing
skip vote of the departing player behind (it keeps the current round), so the
subset invariant is not preserved when a skip-voter is removed. -/
theorem skipVotes_subset_preservation :
    ∀ (r : Room) (p : Player) (voterId playerId imposterIndex wordIndex now : Nat),
      (skipVotesSubset r → skipVotesSubset (addPlayer r p).2) ∧
      (skipVotesSubset r → (∃ q ∈ r.players, q.id = voterId) →
        skipVotesSubset (addSkipVote r voterId).2) ∧
      (∀ r2, startGame r imposterIndex wordIndex now = some (true, r2) →
        skipVotesSubset r2) ∧
      skipVotesSubset (resetGame r) ∧
      (removePlayer r playerId).2.currentRound.skipVotes = r.currentRound.skipVotes := by
  intro r p voterId pid ii wi now
  refine ⟨?_, ?_, ?_, ?_, ?_⟩
  · intro hsub x hx
    rw [addPlayer_skipVotes] at hx
    obtain ⟨q, hq, hqid⟩ := hsub x hx
    exact ⟨q, addPlayer_players_sup r p q hq, hqid⟩
  · intro hsub hvoter x hx
    rw [addSkipVote_skipVotes] at hx
    rcases setAdd_subset r.currentRound.skipVotes voterId x hx with h | h
    · obtain ⟨q, hq, hqid⟩ := hsub x h
      refine ⟨q, ?_, hqid⟩
      rw [addSkipVote_players]
      exact hq
    · obtain ⟨q, hq, hqid⟩ := hvoter
      refine ⟨q, ?_, ?_⟩
      · rw [addSkipVote_players]
        exact hq
      · rw [hqid, h]
  · intro r2 heq
    unfold startGame at heq
    split at heq
    · injection heq with h
      injection h with h1 h2
      exact Bool.noConfusion h1
    · split at heq
      · injection heq with h
        injection h with h1 h2
        exact Bool.noConfusion h1
      · split at heq
        · exact Option.noConfusion heq
        · split at heq
          · injection heq with h
            injection h with h1 h2
            intro x hx
            rw [← h2] at hx
            simp at hx
          · exact Option.noConfusion heq
  · intro x hx
    exact absurd hx (List.not_mem_nil x)
  · rw [removePlayer_currentRound]

/-- Witness for amended C10: the subset invariant survives `dave`
joining, `alice` (an in-room identity) skip-voting, a fresh `startGame`,
and a reset, while `removePlayer` provably leaves `skipVotes` unchanged. -/
theorem skipVotes_subset_preservation_witness :
    skipVotesSubset playingRoom5 ∧
    (∃ q ∈ playingRoom5.players, q.id = 1) ∧
    skipVotesSubset (addSkipVote playingRoom5 1).2 ∧
    skipVotesSubset (resetGame playingRoom5) ∧
    (removePlayer playingRoom5 3).2.currentRound.skipVotes =
      playingRoom5.currentRound.skipVotes := by
  have h := skipVotes_subset_preservation playingRoom5 dave 1 3 0 0 0
  refine ⟨by decide, ⟨alice, by decide, rfl⟩, ?_, h.2.2.2.1, h.2.2.2.2⟩
  exact h.2.1 (by decide) ⟨alice, by decide, rfl⟩

end Imposter
